import Mathlib

/-!
# Verification of the internxt/rclone-adapter upload core

A shallow embedding, in Lean 4, of the parts of the `internxt/rclone-adapter`
Go repository that the specification's claims are about:

* the hand-rolled substring helpers `contains` / `containsMiddle`
  (`buckets/multipart.go`) and the retry classifier `isRetryableError`;
* the multipart upload state (`newMultipartUploadState`), the sequential
  chunk encryption (`encryptAllChunks`), and the result collection of
  `uploadConcurrently`, including the overall shard hash it computes;
* the `RetryAfter` method of `errors.HTTPError`;
* the finish-upload response classification of `FinishUpload` and
  `FinishMultipartUpload`;
* the single-retry-on-404 logic of `CreateMetaFile` (`buckets/meta.go`);
* the size-threshold dispatch of `UploadFileStreamAuto` (`buckets/upload.go`).

Go strings are modelled as `List Char`, byte sequences as `List Nat`
(each element `< 256`), and Go `int64` arithmetic as `Int` with `Int.tdiv`
for Go's truncated integer division.  The network is modelled as explicit
outcome parameters ("oracles"): each modelled function takes the outcome
of every network call it performs and returns its result together with a
trace of the calls it made.  SHA-1, SHA-256 and RIPEMD-160 are implemented
executably so that concrete hash values can be computed inside proofs;
Go's streaming `hash.Hash.Write` over several slices equals hashing their
concatenation, which is how the hash of a chunk sequence is embedded.
-/

/-! ## 32-bit word helpers over `Nat` -/

/-- Truncate to a 32-bit word. -/
def w32 (n : Nat) : Nat := n % 4294967296

/-- Rotate a 32-bit word left by `s` (for `x < 2^32`, `s ≤ 32`). -/
def rotl32 (x s : Nat) : Nat := ((x <<< s) % 4294967296) ||| (x >>> (32 - s))

/-- Rotate a 32-bit word right by `s`. -/
def rotr32 (x s : Nat) : Nat := (x >>> s) ||| ((x <<< (32 - s)) % 4294967296)

/-- Bitwise complement of a 32-bit word. -/
def not32 (x : Nat) : Nat := 4294967295 - x

/-- Lower-case hexadecimal digit, as produced by Go's `encoding/hex`. -/
def hexDigitChar (n : Nat) : Char := if n < 10 then Char.ofNat (48 + n) else Char.ofNat (87 + n)

/-- Go `hex.EncodeToString`: lower-case hex encoding of a byte sequence. -/
def hexEncode (bs : List Nat) : List Char :=
  (bs.map fun b => [hexDigitChar (b / 16 % 16), hexDigitChar (b % 16)]).flatten

/-- Read a 32-bit word from four bytes, little-endian. -/
def leWord (b0 b1 b2 b3 : Nat) : Nat := b0 + 256 * b1 + 65536 * b2 + 16777216 * b3

/-- Read a 32-bit word from four bytes, big-endian. -/
def beWord (b0 b1 b2 b3 : Nat) : Nat := b3 + 256 * b2 + 65536 * b1 + 16777216 * b0

/-- The sixteen big-endian words of a 64-byte block. -/
def wordsBE (block : List Nat) : List Nat :=
  (List.range 16).map fun i =>
    beWord (block.getD (4 * i) 0) (block.getD (4 * i + 1) 0)
      (block.getD (4 * i + 2) 0) (block.getD (4 * i + 3) 0)

/-- The sixteen little-endian words of a 64-byte block. -/
def wordsLE (block : List Nat) : List Nat :=
  (List.range 16).map fun i =>
    leWord (block.getD (4 * i) 0) (block.getD (4 * i + 1) 0)
      (block.getD (4 * i + 2) 0) (block.getD (4 * i + 3) 0)

/-- Big-endian bytes of a 32-bit word. -/
def wordBytesBE (w : Nat) : List Nat := [w >>> 24 % 256, w >>> 16 % 256, w >>> 8 % 256, w % 256]

/-- Little-endian bytes of a 32-bit word. -/
def wordBytesLE (w : Nat) : List Nat := [w % 256, w >>> 8 % 256, w >>> 16 % 256, w >>> 24 % 256]

/-- Merkle–Damgård padding: append `0x80`, zeros, then the 8-byte bit length
(big-endian when `be` is `true`, as in SHA-1/SHA-256; little-endian for RIPEMD-160). -/
def mdPad (be : Bool) (msg : List Nat) : List Nat :=
  let len := msg.length
  let k := (119 - len % 64) % 64
  let bitLen := len * 8
  let lenBytes :=
    if be then (List.range 8).map fun i => bitLen >>> (8 * (7 - i)) % 256
    else (List.range 8).map fun i => bitLen >>> (8 * i) % 256
  msg ++ 128 :: List.replicate k 0 ++ lenBytes

/-- Split a padded message into its 64-byte blocks. -/
def blocks64 (padded : List Nat) : List (List Nat) :=
  (List.range (padded.length / 64)).map fun i => (padded.drop (64 * i)).take 64

/-! ## SHA-1 (as used by `crypto/sha1` in `uploadConcurrently`) -/

def sha1F (t b c d : Nat) : Nat :=
  if t < 20 then (b &&& c) ||| (not32 b &&& d)
  else if t < 40 then b ^^^ c ^^^ d
  else if t < 60 then (b &&& c) ||| (b &&& d) ||| (c &&& d)
  else b ^^^ c ^^^ d

def sha1K (t : Nat) : Nat :=
  if t < 20 then 1518500249
  else if t < 40 then 1859775393
  else if t < 60 then 2400959708
  else 3395469782

/-- Expand the 16 block words to the 80-word SHA-1 message schedule. -/
def sha1Expand (w16 : List Nat) : List Nat :=
  (List.range 64).foldl
    (fun w _ =>
      let t := w.length
      w ++ [rotl32 ((w.getD (t - 3) 0) ^^^ (w.getD (t - 8) 0) ^^^ (w.getD (t - 14) 0) ^^^
        (w.getD (t - 16) 0)) 1])
    w16

def sha1Compress (h : Nat × Nat × Nat × Nat × Nat) (block : List Nat) :
    Nat × Nat × Nat × Nat × Nat :=
  let w := sha1Expand (wordsBE block)
  let (h0, h1, h2, h3, h4) := h
  let st := (List.range 80).foldl
    (fun (st : Nat × Nat × Nat × Nat × Nat) t =>
      let (a, b, c, d, e) := st
      let tmp := w32 (rotl32 a 5 + sha1F t b c d + e + sha1K t + w.getD t 0)
      (tmp, a, rotl32 b 30, c, d))
    (h0, h1, h2, h3, h4)
  let (a, b, c, d, e) := st
  (w32 (h0 + a), w32 (h1 + b), w32 (h2 + c), w32 (h3 + d), w32 (h4 + e))

/-- SHA-1 of a byte sequence. -/
def sha1 (msg : List Nat) : List Nat :=
  let init : Nat × Nat × Nat × Nat × Nat :=
    (1732584193, 4023233417, 2562383102, 271733878, 3285377520)
  let (h0, h1, h2, h3, h4) := (blocks64 (mdPad true msg)).foldl sha1Compress init
  wordBytesBE h0 ++ wordBytesBE h1 ++ wordBytesBE h2 ++ wordBytesBE h3 ++ wordBytesBE h4

/-! ## SHA-256 (as used by `crypto/sha256` in the single-part hash pipeline) -/

def sha256K : List Nat :=
  [1116352408, 1899447441, 3049323471, 3921009573, 961987163, 1508970993, 2453635748, 2870763221,
   3624381080, 310598401, 607225278, 1426881987, 1925078388, 2162078206, 2614888103, 3248222580,
   3835390401, 4022224774, 264347078, 604807628, 770255983, 1249150122, 1555081692, 1996064986,
   2554220882, 2821834349, 2952996808, 3210313671, 3336571891, 3584528711, 113926993, 338241895,
   666307205, 773529912, 1294757372, 1396182291, 1695183700, 1986661051, 2177026350, 2456956037,
   2730485921, 2820302411, 3259730800, 3345764771, 3516065817, 3600352804, 4094571909, 275423344,
   430227734, 506948616, 659060556, 883997877, 958139571, 1322822218, 1537002063, 1747873779,
   1955562222, 2024104815, 2227730452, 2361852424, 2428436474, 2756734187, 3204031479, 3329325298]

/-- Expand the 16 block words to the 64-word SHA-256 message schedule. -/
def sha256Expand (w16 : List Nat) : List Nat :=
  (List.range 48).foldl
    (fun w _ =>
      let t := w.length
      let w15 := w.getD (t - 15) 0
      let w2 := w.getD (t - 2) 0
      let s0 := rotr32 w15 7 ^^^ rotr32 w15 18 ^^^ (w15 >>> 3)
      let s1 := rotr32 w2 17 ^^^ rotr32 w2 19 ^^^ (w2 >>> 10)
      w ++ [w32 (w.getD (t - 16) 0 + s0 + w.getD (t - 7) 0 + s1)])
    w16

structure Sha256State where
  a : Nat
  b : Nat
  c : Nat
  d : Nat
  e : Nat
  f : Nat
  g : Nat
  h : Nat

def sha256Compress (st0 : Sha256State) (block : List Nat) : Sha256State :=
  let w := sha256Expand (wordsBE block)
  let st := (List.range 64).foldl
    (fun (s : Sha256State) t =>
      let S1 := rotr32 s.e 6 ^^^ rotr32 s.e 11 ^^^ rotr32 s.e 25
      let ch := (s.e &&& s.f) ^^^ (not32 s.e &&& s.g)
      let t1 := w32 (s.h + S1 + ch + sha256K.getD t 0 + w.getD t 0)
      let S0 := rotr32 s.a 2 ^^^ rotr32 s.a 13 ^^^ rotr32 s.a 22
      let maj := (s.a &&& s.b) ^^^ (s.a &&& s.c) ^^^ (s.b &&& s.c)
      let t2 := w32 (S0 + maj)
      { a := w32 (t1 + t2), b := s.a, c := s.b, d := s.c,
        e := w32 (s.d + t1), f := s.e, g := s.f, h := s.g })
    st0
  { a := w32 (st0.a + st.a), b := w32 (st0.b + st.b), c := w32 (st0.c + st.c),
    d := w32 (st0.d + st.d), e := w32 (st0.e + st.e), f := w32 (st0.f + st.f),
    g := w32 (st0.g + st.g), h := w32 (st0.h + st.h) }

/-- SHA-256 of a byte sequence. -/
def sha256 (msg : List Nat) : List Nat :=
  let init : Sha256State :=
    { a := 1779033703, b := 3144134277, c := 1013904242, d := 2773480762,
      e := 1359893119, f := 2600822924, g := 528734635, h := 1541459225 }
  let s := (blocks64 (mdPad true msg)).foldl sha256Compress init
  wordBytesBE s.a ++ wordBytesBE s.b ++ wordBytesBE s.c ++ wordBytesBE s.d ++
    wordBytesBE s.e ++ wordBytesBE s.f ++ wordBytesBE s.g ++ wordBytesBE s.h

/-! ## RIPEMD-160 (the hash the spec's file-hash contract composes with SHA-256) -/

def rmdR1 : List Nat :=
  [0, 1, 2, 3, 4, 5, 6, 7, 8, 9, 10, 11, 12, 13, 14, 15,
   7, 4, 13, 1, 10, 6, 15, 3, 12, 0, 9, 5, 2, 14, 11, 8,
   3, 10, 14, 4, 9, 15, 8, 1, 2, 7, 0, 6, 13, 11, 5, 12,
   1, 9, 11, 10, 0, 8, 12, 4, 13, 3, 7, 15, 14, 5, 6, 2,
   4, 0, 5, 9, 7, 12, 2, 10, 14, 1, 3, 8, 11, 6, 15, 13]

def rmdR2 : List Nat :=
  [5, 14, 7, 0, 9, 2, 11, 4, 13, 6, 15, 8, 1, 10, 3, 12,
   6, 11, 3, 7, 0, 13, 5, 10, 14, 15, 8, 12, 4, 9, 1, 2,
   15, 5, 1, 3, 7, 14, 6, 9, 11, 8, 12, 2, 10, 0, 4, 13,
   8, 6, 4, 1, 3, 11, 15, 0, 5, 12, 2, 13, 9, 7, 10, 14,
   12, 15, 10, 4, 1, 5, 8, 7, 6, 2, 13, 14, 0, 3, 9, 11]

def rmdS1 : List Nat :=
  [11, 14, 15, 12, 5, 8, 7, 9, 11, 13, 14, 15, 6, 7, 9, 8,
   7, 6, 8, 13, 11, 9, 7, 15, 7, 12, 15, 9, 11, 7, 13, 12,
   11, 13, 6, 7, 14, 9, 13, 15, 14, 8, 13, 6, 5, 12, 7, 5,
   11, 12, 14, 15, 14, 15, 9, 8, 9, 14, 5, 6, 8, 6, 5, 12,
   9, 15, 5, 11, 6, 8, 13, 12, 5, 12, 13, 14, 11, 8, 5, 6]

def rmdS2 : List Nat :=
  [8, 9, 9, 11, 13, 15, 15, 5, 7, 7, 8, 11, 14, 14, 12, 6,
   9, 13, 15, 7, 12, 8, 9, 11, 7, 7, 12, 7, 6, 15, 13, 11,
   9, 7, 15, 11, 8, 6, 6, 14, 12, 13, 5, 14, 13, 13, 7, 5,
   15, 5, 8, 11, 14, 14, 6, 14, 6, 9, 12, 9, 12, 5, 15, 8,
   8, 5, 12, 9, 12, 5, 14, 6, 8, 13, 6, 5, 15, 13, 11, 11]

def rmdF (j x y z : Nat) : Nat :=
  if j < 16 then x ^^^ y ^^^ z
  else if j < 32 then (x &&& y) ||| (not32 x &&& z)
  else if j < 48 then (x ||| not32 y) ^^^ z
  else if j < 64 then (x &&& z) ||| (y &&& not32 z)
  else x ^^^ (y ||| not32 z)

def rmdK1 (j : Nat) : Nat :=
  if j < 16 then 0
  else if j < 32 then 1518500249
  else if j < 48 then 1859775393
  else if j < 64 then 2400959708
  else 2840853838

def rmdK2 (j : Nat) : Nat :=
  if j < 16 then 1352829926
  else if j < 32 then 1548603684
  else if j < 48 then 1836072691
  else if j < 64 then 2053994217
  else 0

structure RmdState where
  h0 : Nat
  h1 : Nat
  h2 : Nat
  h3 : Nat
  h4 : Nat

structure RmdLanes where
  a1 : Nat
  b1 : Nat
  c1 : Nat
  d1 : Nat
  e1 : Nat
  a2 : Nat
  b2 : Nat
  c2 : Nat
  d2 : Nat
  e2 : Nat

def rmdCompress (h : RmdState) (block : List Nat) : RmdState :=
  let x := wordsLE block
  let init : RmdLanes :=
    { a1 := h.h0, b1 := h.h1, c1 := h.h2, d1 := h.h3, e1 := h.h4,
      a2 := h.h0, b2 := h.h1, c2 := h.h2, d2 := h.h3, e2 := h.h4 }
  let st := (List.range 80).foldl
    (fun (s : RmdLanes) j =>
      let t1 := w32 (rotl32 (w32 (s.a1 + rmdF j s.b1 s.c1 s.d1 + x.getD (rmdR1.getD j 0) 0 +
        rmdK1 j)) (rmdS1.getD j 0) + s.e1)
      let t2 := w32 (rotl32 (w32 (s.a2 + rmdF (79 - j) s.b2 s.c2 s.d2 + x.getD (rmdR2.getD j 0) 0 +
        rmdK2 j)) (rmdS2.getD j 0) + s.e2)
      { a1 := s.e1, b1 := t1, c1 := s.b1, d1 := rotl32 s.c1 10, e1 := s.d1,
        a2 := s.e2, b2 := t2, c2 := s.b2, d2 := rotl32 s.c2 10, e2 := s.d2 })
    init
  { h0 := w32 (h.h1 + st.c1 + st.d2),
    h1 := w32 (h.h2 + st.d1 + st.e2),
    h2 := w32 (h.h3 + st.e1 + st.a2),
    h3 := w32 (h.h4 + st.a1 + st.b2),
    h4 := w32 (h.h0 + st.b1 + st.c2) }

/-- RIPEMD-160 of a byte sequence. -/
def ripemd160 (msg : List Nat) : List Nat :=
  let init : RmdState :=
    { h0 := 1732584193, h1 := 4023233417, h2 := 2562383102, h3 := 271733878, h4 := 3285377520 }
  let s := (blocks64 (mdPad false msg)).foldl rmdCompress init
  wordBytesLE s.h0 ++ wordBytesLE s.h1 ++ wordBytesLE s.h2 ++ wordBytesLE s.h3 ++ wordBytesLE s.h4

/-! ## The hand-rolled substring helpers of `buckets/multipart.go` -/

/-- Go `containsMiddle(s, substr)`: scan every start offset `i` with
`0 ≤ i ≤ len(s)-len(substr)` and compare `s[i:i+len(substr)]` with `substr`.
(The Go loop bound `len(s)-len(substr)` is a possibly negative `int`;
`s.length + 1 - substr.length` in `Nat` runs the loop the same number of
times: zero when `substr` is longer than `s`.) -/
def containsMiddle {α : Type} [DecidableEq α] (s substr : List α) : Bool :=
  (List.range (s.length + 1 - substr.length)).any fun i =>
    decide ((s.drop i).take substr.length = substr)

/-- Go `contains(s, substr)` from `buckets/multipart.go`:
`len(s) >= len(substr) && (s == substr || len(s) > len(substr) &&
(s[:len(substr)] == substr || s[len(s)-len(substr):] == substr || containsMiddle(s, substr)))`. -/
def contains {α : Type} [DecidableEq α] (s substr : List α) : Bool :=
  decide (substr.length ≤ s.length) &&
    (decide (s = substr) ||
      (decide (substr.length < s.length) &&
        (decide (s.take substr.length = substr) ||
          decide (s.drop (s.length - substr.length) = substr) ||
          containsMiddle s substr)))

/-- Go `isRetryableError(err)` from `buckets/multipart.go`.  A `none`
argument models a nil Go error; `some errStr` models an error whose
rendered string (`err.Error()`) is `errStr`. -/
def isRetryableError : Option (List Char) → Bool
  | none => false
  | some errStr =>
    if contains errStr "400".toList || contains errStr "401".toList ||
        contains errStr "403".toList || contains errStr "404".toList then false
    else true

/-! ## Configuration constants (`config/config.go`) -/

/-- Go `config.DefaultChunkSize = 30 * 1024 * 1024` (30 MiB). -/
def DefaultChunkSize : Int := 30 * 1024 * 1024

/-- Go `config.DefaultMultipartMinSize = 100 * 1024 * 1024` (100 MiB). -/
def DefaultMultipartMinSize : Int := 100 * 1024 * 1024

/-- Go `config.DefaultMaxConcurrency = 6`. -/
def DefaultMaxConcurrency : Nat := 6

/-! ## Multipart upload state (`buckets/multipart.go`) -/

/-- The size/partitioning fields of Go's `multipartUploadState`.  The random
index, derived key and cipher are not represented: the AES-256-CTR keystream
is abstracted as an explicit keystream parameter of `encryptAllChunks`
(a CTR cipher XORs the data with a keystream that only depends on key and IV),
which is all the claims about sizes, ordering and hashing need. -/
structure MultipartUploadState where
  totalSize : Int
  chunkSize : Int
  numParts : Int
  maxConcurrency : Nat

/-- Go `newMultipartUploadState(cfg, plainSize)` (size fields only):
`chunkSize := DefaultChunkSize; numParts := (plainSize + chunkSize - 1) / chunkSize`
with Go's truncated `int64` division (`Int.tdiv`). -/
def newMultipartUploadState (plainSize : Int) : MultipartUploadState :=
  { totalSize := plainSize
    chunkSize := DefaultChunkSize
    numParts := (plainSize + DefaultChunkSize - 1).tdiv DefaultChunkSize
    maxConcurrency := DefaultMaxConcurrency }

/-- `cipher.Stream.XORKeyStream` for a CTR stream cipher: XOR the data with
the keystream bytes starting at absolute stream position `offset`.  The
keystream `ks` is an arbitrary byte function (masked to a byte). -/
def xorKeyStream (ks : Nat → Nat) (offset : Nat) (data : List Nat) : List Nat :=
  data.mapIdx fun j b => Nat.xor b (ks (offset + j) % 256)

/-- Go `(*multipartUploadState).encryptAllChunks(reader)`: read `numParts`
consecutive chunks of the input — each of `chunkSize` bytes except the last,
which is sized `totalSize - i*chunkSize` — and encrypt them sequentially with
the single cipher instance (keystream positions continue across chunks).
Sequential `io.ReadFull` calls on one reader are modelled by slicing `data`
at offset `i * chunkSize`. -/
def encryptAllChunks (ks : Nat → Nat) (st : MultipartUploadState) (data : List Nat) :
    List (List Nat) :=
  (List.range st.numParts.toNat).map fun (i : Nat) =>
    let chunkSize : Int :=
      if (i : Int) = st.numParts - 1 then st.totalSize - (i : Int) * st.chunkSize
      else st.chunkSize
    xorKeyStream ks (i * st.chunkSize.toNat) ((data.drop (i * st.chunkSize.toNat)).take chunkSize.toNat)

/-- Go `CompletedPart` (`PartNumber int`, `ETag string`). -/
structure CompletedPart where
  PartNumber : Int
  ETag : List Char
deriving DecidableEq

/-- Go `MultipartShard` (`uuid`, `hash`, `UploadId`, `parts`). -/
structure MultipartShard where
  UUID : List Char
  Hash : List Char
  UploadId : List Char
  Parts : List CompletedPart
deriving DecidableEq

/-- Go `(*multipartUploadState).uploadConcurrently(encryptedChunks)`.

The per-chunk upload outcome (`uploadChunkWithRetry`, whose `Transfer` target
is a network call) is the oracle `transfer : Nat → Except (List Char) (List Char)`:
for chunk index `i` it yields the ETag string on success or the error string
on failure.  The Go function launches one goroutine per chunk, collects all
results, keeps the first error, and fills `parts[idx] = {idx+1, etag}` for
each successful chunk; on any error it returns that error, otherwise the
parts array together with `hex(SHA-1(concat(encryptedChunks)))` — the
overall hash it computes with `crypto/sha1`.  Result collection order is
nondeterministic in Go but the outcome modelled here (first error by index,
parts keyed by index) is order-independent. -/
def uploadConcurrently (numParts : Nat) (encryptedChunks : List (List Nat))
    (transfer : Nat → Except (List Char) (List Char)) :
    Except (List Char) (List CompletedPart × List Char) :=
  let firstError : Option (List Char) :=
    (List.range encryptedChunks.length).findSome? fun i =>
      match transfer i with
      | .error e => some e
      | .ok _ => none
  match firstError with
  | some e => .error e
  | none =>
    let parts := (List.range numParts).map fun i =>
      if i < encryptedChunks.length then
        match transfer i with
        | .ok etag => { PartNumber := (i : Int) + 1, ETag := etag }
        | .error _ => { PartNumber := 0, ETag := [] }
      else { PartNumber := 0, ETag := [] }
    .ok (parts, hexEncode (sha1 encryptedChunks.flatten))

/-- Go `(*multipartUploadState).executeMultipartUpload` (tail part): run
`uploadConcurrently` on the encrypted chunks and package the result as the
`MultipartShard` handed to `FinishMultipartUpload`, with `Hash := overallHash`. -/
def executeMultipartUpload (st : MultipartUploadState) (uuid uploadId : List Char)
    (encryptedChunks : List (List Nat))
    (transfer : Nat → Except (List Char) (List Char)) :
    Except (List Char) MultipartShard :=
  match uploadConcurrently st.numParts.toNat encryptedChunks transfer with
  | .error e => .error e
  | .ok (completedParts, overallHash) =>
    .ok { UUID := uuid, Hash := overallHash, UploadId := uploadId, Parts := completedParts }

/-! ## `errors.HTTPError.RetryAfter` (`errors/errors.go`) -/

/-- Go `strconv.Atoi` on a 64-bit platform (`int` = `int64`): an optional
single leading `+`/`-` sign followed by at least one decimal digit; anything
else is a syntax error (`none`), and a value outside the `int64` range
`[-2^63, 2^63-1]` is a range error (`err != nil`, so also `none` to the
`err == nil` caller). -/
def goAtoi (s : List Char) : Option Int :=
  let digits : List Char → Option Nat := fun ds =>
    if ds = [] then none
    else ds.foldl
      (fun acc c =>
        acc.bind fun a =>
          if 48 ≤ c.toNat ∧ c.toNat ≤ 57 then some (a * 10 + (c.toNat - 48)) else none)
      (some 0)
  match s with
  | '+' :: ds =>
    (digits ds).bind fun n =>
      if n ≤ 9223372036854775807 then some (Int.ofNat n) else none
  | '-' :: ds =>
    (digits ds).bind fun n =>
      if n ≤ 9223372036854775808 then some (-(Int.ofNat n)) else none
  | ds =>
    (digits ds).bind fun n =>
      if n ≤ 9223372036854775807 then some (Int.ofNat n) else none

/-- Go `int64` wrap-around: reduce an unbounded integer modulo `2^64` into
`[-2^63, 2^63)`, as Go arithmetic on `int64` (and `time.Duration`) does. -/
def wrap64 (x : Int) : Int :=
  (x + 9223372036854775808) % 18446744073709551616 - 9223372036854775808

/-- Go `(*HTTPError).RetryAfter()` from `errors/errors.go`, returning a
`time.Duration` in nanoseconds.  The response headers are modelled as the
lookup function `headers` (Go `Header.Get`, returning `""` for an absent
key): the method reads the `x-internxt-ratelimit-reset` header, and when it
parses as a positive integer `ms` returns `time.Duration(ms) * time.Millisecond`
— an `int64` product that wraps around (`wrap64`) when `ms * 10^6` exceeds
the `int64` range; in every other case it returns 0. -/
def RetryAfter (headers : String → String) : Int :=
  let v := headers "x-internxt-ratelimit-reset"
  if v ≠ "" then
    match goAtoi v.toList with
    | some ms => if 0 < ms then wrap64 (ms * 1000000) else 0
    | none => 0
  else 0

/-! ## Finish-upload response classification (`FinishUpload`, `FinishMultipartUpload`) -/

/-- Outcome of a finish-upload call, by error kind: `ok` for a 2xx response,
`duplicateShard` for the dedicated "file already exists on server (duplicate
shard)" error, `finishFailed` for the generic "finish … upload failed" error. -/
inductive FinishOutcome where
  | ok
  | duplicateShard (status : Int) (body : List Char)
  | finishFailed (status : Int) (body : List Char)
deriving DecidableEq

/-- The body substring both finish functions test for with `strings.Contains`. -/
def dupKeyMarker : List Char := "duplicate key error".toList

/-- Go standard library `strings.Contains`: substring containment. -/
def stringsContains (s sub : List Char) : Bool := decide (sub <:+: s)

/-- Go `FinishUpload` (response classification): non-2xx responses with
status 500 and a body containing `"duplicate key error"` yield the
duplicate-shard error, every other non-2xx response the generic
"finish upload failed" error, and 2xx responses succeed. -/
def FinishUpload (status : Int) (body : List Char) : FinishOutcome :=
  if status < 200 ∨ 300 ≤ status then
    if status = 500 ∧ stringsContains body dupKeyMarker then .duplicateShard status body
    else .finishFailed status body
  else .ok

/-- Go `FinishMultipartUpload` (response classification): identical
branching to `FinishUpload`, with the generic error reading
"finish multipart upload failed". -/
def FinishMultipartUpload (status : Int) (body : List Char) : FinishOutcome :=
  if status < 200 ∨ 300 ≤ status then
    if status = 500 ∧ stringsContains body dupKeyMarker then .duplicateShard status body
    else .finishFailed status body
  else .ok

/-! ## `CreateMetaFile` retry-on-404 (`buckets/meta.go`) -/

/-- Error produced by one `doCreateMetaFile` attempt: an `errors.HTTPError`
with its status code, or any other error (network failure, bad JSON, …). -/
inductive MetaCallError where
  | httpError (status : Int) (msg : List Char)
  | otherError (msg : List Char)
deriving DecidableEq

/-- Overall error of `CreateMetaFile`: an attempt's error passed through,
or `ctx.Err()` when the context is cancelled during the 500 ms wait. -/
inductive CreateMetaError where
  | fromCall (e : MetaCallError)
  | ctxCancelled
deriving DecidableEq

/-- The 404 test of `CreateMetaFile`: `errors.As(err, &httpErr)` succeeded
and `httpErr.StatusCode() == http.StatusNotFound`. -/
def isNotFound : MetaCallError → Bool
  | .httpError status _ => status == 404
  | .otherError _ => false

/-- Go `CreateMetaFile` (`buckets/meta.go`): run `doCreateMetaFile`; on
success return.  If the error is not an HTTP 404, return it unchanged.
Otherwise wait 500 ms — returning `ctx.Err()` if the context is cancelled
during the wait (`cancelledDuringWait`) — and retry exactly once, returning
the second attempt's outcome.  The two attempts' outcomes are the oracles
`attempt1`, `attempt2`; the second component counts the `doCreateMetaFile`
calls performed. -/
def CreateMetaFile (attempt1 attempt2 : Except MetaCallError (List Char))
    (cancelledDuringWait : Bool) : Except CreateMetaError (List Char) × Nat :=
  match attempt1 with
  | .ok r => (.ok r, 1)
  | .error e =>
    if isNotFound e then
      if cancelledDuringWait then (.error .ctxCancelled, 1)
      else
        match attempt2 with
        | .ok r => (.ok r, 2)
        | .error e2 => (.error (.fromCall e2), 2)
    else (.error (.fromCall e), 1)

/-! ## Upload dispatcher (`buckets/upload.go`) -/

/-- One `createMeta` request, with the fields the claims inspect:
the `fileId` sent (Go `*string`, `none` = JSON null) and the `size`. -/
structure MetaReq where
  fileID : Option (List Char)
  size : Int
deriving DecidableEq

/-- Trace of the network calls one upload performs: counts of start-upload,
transfer (PUT to a presigned URL) and finish-upload calls, and the list of
`createMeta` requests issued. -/
structure UploadTrace where
  startCalls : Nat
  transferCalls : Nat
  finishCalls : Nat
  metaReqs : List MetaReq
deriving DecidableEq

/-- Outcomes of the network calls of the single-part path, in program order:
`StartUpload`, `Transfer`, `FinishUpload` (returning the network file id),
`CreateMetaFile` (returning the created file's uuid). -/
structure SingleEnv where
  start : Except (List Char) Unit
  transfer : Except (List Char) Unit
  finish : Except (List Char) (List Char)
  createMeta : Except (List Char) (List Char)

/-- Outcomes of the network calls of the multipart path: `StartUploadMultipart`,
the per-chunk transfers, `FinishMultipartUpload`, `CreateMetaFile`. -/
structure MultiEnv where
  start : Except (List Char) Unit
  transfer : Nat → Except (List Char) (List Char)
  finish : Except (List Char) (List Char)
  createMeta : Except (List Char) (List Char)

/-- Go `UploadFileStream` (`buckets/upload.go`), for a known non-negative
`plainSize`, as a call trace: it always issues `StartUpload`, then `Transfer`
(one PUT of the whole encrypted stream — also when `plainSize` is 0), then
`FinishUpload`, then one `createMeta` whose request carries
`fileId = finishResp.ID` (never null) and `size = plainSize`, short-circuiting
on the first failed call.  The crypto pipeline is independent of the call
structure and is modelled with `encryptAllChunks`/`xorKeyStream`. -/
def UploadFileStream (env : SingleEnv) (plainSize : Int) :
    Except (List Char) (List Char) × UploadTrace :=
  match env.start with
  | .error e => (.error e, { startCalls := 1, transferCalls := 0, finishCalls := 0, metaReqs := [] })
  | .ok _ =>
    match env.transfer with
    | .error e => (.error e, { startCalls := 1, transferCalls := 1, finishCalls := 0, metaReqs := [] })
    | .ok _ =>
      match env.finish with
      | .error e => (.error e, { startCalls := 1, transferCalls := 1, finishCalls := 1, metaReqs := [] })
      | .ok fid =>
        let req : MetaReq := { fileID := some fid, size := plainSize }
        match env.createMeta with
        | .error e =>
          (.error e, { startCalls := 1, transferCalls := 1, finishCalls := 1, metaReqs := [req] })
        | .ok uuid =>
          (.ok uuid, { startCalls := 1, transferCalls := 1, finishCalls := 1, metaReqs := [req] })

/-- Go `UploadFileStreamMultipart` (`buckets/upload.go`) as a call trace:
`StartUploadMultipart`, then one transfer per part (all `numParts` chunk
uploads are launched), then `FinishMultipartUpload`, then one `createMeta`
with `fileId = finishResp.ID` and `size = plainSize`. -/
def UploadFileStreamMultipart (env : MultiEnv) (plainSize : Int) :
    Except (List Char) (List Char) × UploadTrace :=
  let st := newMultipartUploadState plainSize
  let np := st.numParts.toNat
  match env.start with
  | .error e => (.error e, { startCalls := 1, transferCalls := 0, finishCalls := 0, metaReqs := [] })
  | .ok _ =>
    let firstError : Option (List Char) :=
      (List.range np).findSome? fun i =>
        match env.transfer i with
        | .error e => some e
        | .ok _ => none
    match firstError with
    | some e => (.error e, { startCalls := 1, transferCalls := np, finishCalls := 0, metaReqs := [] })
    | none =>
      match env.finish with
      | .error e =>
        (.error e, { startCalls := 1, transferCalls := np, finishCalls := 1, metaReqs := [] })
      | .ok fid =>
        let req : MetaReq := { fileID := some fid, size := plainSize }
        match env.createMeta with
        | .error e =>
          (.error e, { startCalls := 1, transferCalls := np, finishCalls := 1, metaReqs := [req] })
        | .ok uuid =>
          (.ok uuid, { startCalls := 1, transferCalls := np, finishCalls := 1, metaReqs := [req] })

/-- Which uploader `UploadFileStreamAuto` dispatched to. -/
inductive UploadPath where
  | single
  | multipart
deriving DecidableEq

/-- Go `UploadFileStreamAuto` (`buckets/upload.go`), for a known
non-negative `plainSize` (the `plainSize < 0` branch buffers the stream and
re-enters with the buffered length): dispatch on
`plainSize >= config.DefaultMultipartMinSize` to the multipart or
single-part uploader.  (Thumbnail capture does not alter the upload call
sequence and is not represented.) -/
def UploadFileStreamAuto (envS : SingleEnv) (envM : MultiEnv) (plainSize : Int) :
    (Except (List Char) (List Char) × UploadTrace) × UploadPath :=
  if DefaultMultipartMinSize ≤ plainSize then (UploadFileStreamMultipart envM plainSize, .multipart)
  else (UploadFileStream envS plainSize, .single)

/-- A single-part environment in which every call succeeds, with the
network file id and file uuid as parameters. -/
def successSingleEnv (fid uuid : List Char) : SingleEnv :=
  { start := .ok (), transfer := .ok (), finish := .ok fid, createMeta := .ok uuid }

/-- A multipart environment in which every call succeeds. -/
def successMultiEnv (fid uuid : List Char) : MultiEnv :=
  { start := .ok (), transfer := fun _ => .ok "etag".toList, finish := .ok fid,
    createMeta := .ok uuid }

/-! ## Sanity checks: hash test vectors (FIPS 180 / RIPEMD-160 reference) -/

set_option maxRecDepth 1000000

example : hexEncode (sha1 ("abc".toList.map Char.toNat)) =
    "a9993e364706816aba3e25717850c26c9cd0d89d".toList := by decide

example : hexEncode (sha256 ("abc".toList.map Char.toNat)) =
    "ba7816bf8f01cfea414140de5dae2223b00361a396177a9cb410ff61f20015ad".toList := by decide

example : hexEncode (ripemd160 ("abc".toList.map Char.toNat)) =
    "8eb208f7e05d987a9b044a8e98c6b087f15a0bfc".toList := by decide

/-! ## Substring containment: `contains` agrees with `List.IsInfix` -/

/-- A list is an infix of `s` exactly when it appears as a slice
`s[i : i+substr.length]` that fits inside `s`. -/
theorem isInfixIffSlice {α : Type} (s substr : List α) :
    substr <:+: s ↔ ∃ i, i + substr.length ≤ s.length ∧ (s.drop i).take substr.length = substr := by
  constructor
  · rintro ⟨t, u, rfl⟩
    refine ⟨t.length, ?_, ?_⟩
    · simp only [List.length_append]
      omega
    · rw [List.append_assoc, List.drop_left, List.take_left]
  · rintro ⟨i, hle, hslice⟩
    refine ⟨s.take i, (s.drop i).drop substr.length, ?_⟩
    conv_rhs => rw [← List.take_append_drop i s, ← List.take_append_drop substr.length (s.drop i)]
    rw [hslice, List.append_assoc]

/-- The hand-rolled `contains` decides substring containment. -/
theorem contains_eq_true_iff {α : Type} [DecidableEq α] (s substr : List α) :
    contains s substr = true ↔ substr <:+: s := by
  rw [isInfixIffSlice]
  simp only [contains, containsMiddle, Bool.and_eq_true, Bool.or_eq_true, decide_eq_true_eq,
    List.any_eq_true, List.mem_range]
  constructor
  · rintro ⟨hlen, heq | ⟨hlt, (h | h) | ⟨i, hi, h⟩⟩⟩
    · subst heq
      exact ⟨0, by omega, by rw [List.drop_zero, List.take_length]⟩
    · exact ⟨0, by omega, by rw [List.drop_zero]; exact h⟩
    · refine ⟨s.length - substr.length, by omega, ?_⟩
      rw [h, List.take_length]
    · exact ⟨i, by omega, h⟩
  · rintro ⟨i, hle, hslice⟩
    have hlen : substr.length ≤ s.length := by omega
    refine ⟨hlen, ?_⟩
    by_cases heq : s = substr
    · exact Or.inl heq
    · rcases Nat.lt_or_ge substr.length s.length with hlt | hge
      · exact Or.inr ⟨hlt, Or.inr ⟨i, by omega, hslice⟩⟩
      · exfalso
        have hleneq : substr.length = s.length := le_antisymm hlen hge
        have hi0 : i = 0 := by omega
        subst hi0
        rw [List.drop_zero, hleneq, List.take_length] at hslice
        exact heq hslice

/-- C10: for all strings `s` and `substr`, the hand-rolled `contains(s, substr)`
returns true exactly when `substr` occurs as a contiguous substring of `s` —
it is extensionally equal to the platform's built-in substring containment
(`strings.Contains`, modelled by `stringsContains`), including the
empty-substring and equal-length edge cases. -/
theorem claim_C10_contains_is_builtin (s substr : List Char) :
    contains s substr = stringsContains s substr ∧
      (contains s substr = true ↔ substr <:+: s) := by
  refine ⟨?_, contains_eq_true_iff s substr⟩
  by_cases h : substr <:+: s
  · rw [(contains_eq_true_iff s substr).mpr h]
    simp [stringsContains, h]
  · have hc : contains s substr = false :=
      Bool.eq_false_iff.mpr fun hc => h ((contains_eq_true_iff s substr).mp hc)
    rw [hc]
    simp [stringsContains, h]

/-- C4: `isRetryableError` returns `false` for a non-nil error exactly when the
error's rendered string contains `"400"`, `"401"`, `"403"`, or `"404"`; every
other non-nil error is classified retryable, and a nil error is not retryable. -/
theorem claim_C4_isRetryableError_classification :
    isRetryableError none = false ∧
      ∀ s : List Char,
        isRetryableError (some s) = false ↔
          ("400".toList <:+: s ∨ "401".toList <:+: s ∨ "403".toList <:+: s ∨
            "404".toList <:+: s) := by
  refine ⟨rfl, fun s => ?_⟩
  have key : isRetryableError (some s) = false ↔
      (contains s "400".toList || contains s "401".toList || contains s "403".toList ||
        contains s "404".toList) = true := by
    simp only [isRetryableError]
    cases h : (contains s "400".toList || contains s "401".toList || contains s "403".toList ||
        contains s "404".toList) <;> simp [h]
  rw [key]
  simp only [Bool.or_eq_true, contains_eq_true_iff]
  tauto

/-! ## Chunk partitioning arithmetic -/

/-- `numParts` over a non-negative size, bridged to `Nat` ceiling division. -/
theorem numParts_cast (n : Nat) :
    (newMultipartUploadState (n : Int)).numParts = (((n + 31457279) / 31457280 : Nat) : Int) := by
  simp only [newMultipartUploadState, DefaultChunkSize]
  have h1 : ((n : Int) + 30 * 1024 * 1024 - 1) = ((n + 31457279 : Nat) : Int) := by
    push_cast
    ring
  rw [h1, show (30 * 1024 * 1024 : Int) = ((31457280 : Nat) : Int) by norm_num]
  exact (Int.ofNat_tdiv _ _).symm

/-- `xorKeyStream` preserves length. -/
theorem xorKeyStream_length (ks : Nat → Nat) (off : Nat) (data : List Nat) :
    (xorKeyStream ks off data).length = data.length := by
  simp [xorKeyStream]

/-- The `i`-th chunk produced by `encryptAllChunks`. -/
theorem encryptAllChunks_get (ks : Nat → Nat) (st : MultipartUploadState) (data : List Nat)
    (i : Nat) (h : i < (encryptAllChunks ks st data).length) :
    (encryptAllChunks ks st data).get ⟨i, h⟩ =
      xorKeyStream ks (i * st.chunkSize.toNat)
        ((data.drop (i * st.chunkSize.toNat)).take
          (if (i : Int) = st.numParts - 1 then st.totalSize - (i : Int) * st.chunkSize
            else st.chunkSize).toNat) := by
  simp only [encryptAllChunks, List.get_eq_getElem, List.getElem_map, List.getElem_range]

/-- C5: `newMultipartUploadState` sets `numParts = ceil(plainSize / chunkSize)`
with `chunkSize = 30 MiB` — so `numParts = 0` iff `plainSize = 0`, a 60 MiB
input yields `numParts = 2` and 60 MiB + 1 yields `numParts = 3` — and
`encryptAllChunks` sizes every chunk at `chunkSize` except the last, whose
size is `totalSize - (numParts-1)*chunkSize`.  (The ceiling is expressed by
the bounds `plainSize ≤ numParts * chunkSize < plainSize + chunkSize`.) -/
theorem claim_C5_chunk_partitioning :
    (∀ plainSize : Int, 0 ≤ plainSize →
      (newMultipartUploadState plainSize).chunkSize = 30 * 1024 * 1024 ∧
      ((newMultipartUploadState plainSize).numParts = 0 ↔ plainSize = 0) ∧
      plainSize ≤ (newMultipartUploadState plainSize).numParts * (30 * 1024 * 1024) ∧
      (newMultipartUploadState plainSize).numParts * (30 * 1024 * 1024) <
        plainSize + 30 * 1024 * 1024) ∧
    (newMultipartUploadState (60 * 1024 * 1024)).numParts = 2 ∧
    (newMultipartUploadState (60 * 1024 * 1024 + 1)).numParts = 3 ∧
    (∀ (plainSize : Int) (data : List Nat) (ks : Nat → Nat), 0 < plainSize →
      (data.length : Int) = plainSize →
      ((encryptAllChunks ks (newMultipartUploadState plainSize) data).length : Int) =
          (newMultipartUploadState plainSize).numParts ∧
      ∀ i (h : i < (encryptAllChunks ks (newMultipartUploadState plainSize) data).length),
        ((i : Int) < (newMultipartUploadState plainSize).numParts - 1 →
          (((encryptAllChunks ks (newMultipartUploadState plainSize) data).get ⟨i, h⟩).length : Int) =
            30 * 1024 * 1024) ∧
        ((i : Int) = (newMultipartUploadState plainSize).numParts - 1 →
          (((encryptAllChunks ks (newMultipartUploadState plainSize) data).get ⟨i, h⟩).length : Int) =
            plainSize - ((newMultipartUploadState plainSize).numParts - 1) * (30 * 1024 * 1024))) := by
  refine ⟨?_, by decide, by decide, ?_⟩
  · intro p hp
    obtain ⟨n, rfl⟩ := Int.eq_ofNat_of_zero_le hp
    rw [numParts_cast]
    refine ⟨rfl, ?_, ?_, ?_⟩
    · constructor
      · intro h
        have h0 : (n + 31457279) / 31457280 = 0 := by exact_mod_cast h
        have : n = 0 := by omega
        exact_mod_cast congrArg (Nat.cast : Nat → Int) this
      · intro h
        have h0 : n = 0 := by exact_mod_cast h
        subst h0
        norm_num
    · push_cast
      omega
    · push_cast
      omega
  · intro p data ks hp hlen
    obtain ⟨n, rfl⟩ := Int.eq_ofNat_of_zero_le (le_of_lt hp)
    have hn : 0 < n := by exact_mod_cast hp
    have hdata : data.length = n := by exact_mod_cast hlen
    have hclen : (encryptAllChunks ks (newMultipartUploadState (n : Int)) data).length =
        (n + 31457279) / 31457280 := by
      simp only [encryptAllChunks, List.length_map, List.length_range, numParts_cast]
      omega
    have hcs : (newMultipartUploadState (n : Int)).chunkSize = 30 * 1024 * 1024 := rfl
    have hts : (newMultipartUploadState (n : Int)).totalSize = (n : Int) := rfl
    refine ⟨by rw [hclen, numParts_cast], ?_⟩
    intro i h
    have hi : i < (n + 31457279) / 31457280 := hclen ▸ h
    rw [encryptAllChunks_get, xorKeyStream_length, List.length_take, List.length_drop]
    rw [numParts_cast, hcs, hts, hdata]
    constructor
    · intro hlt
      have hi1 : i + 1 < (n + 31457279) / 31457280 := by
        push_cast at hlt
        omega
      rw [if_neg (show ¬((i : Int) = ((((n + 31457279) / 31457280 : Nat)) : Int) - 1) by
        push_cast
        omega)]
      norm_num
      rw [show ((31457280 : Int)).toNat = 31457280 from rfl]
      omega
    · intro heqi
      rw [if_pos heqi]
      norm_num
      rw [show ((31457280 : Int)).toNat = 31457280 from rfl]
      omega

/-! ## C1 and C6: the multipart finish payload -/

/-- C1: the spec claims the hash field of the shard passed to
`finishMultipartUpload` equals lowercase-hex `RIPEMD-160(SHA-256(concat(encrypted
chunks)))`; the code (`uploadConcurrently`, `buckets/multipart.go` lines 192–198)
instead computes lowercase-hex `SHA-1(concat(encrypted chunks))` with
`crypto/sha1` — contradicting the repository's own hash contract
(`ComputeFileHash` = RIPEMD-160 ∘ SHA-256 in `upload.go` and in the multipart
`ChunkUploadSession.Finish` helper, both commented "matches web client").
At the concrete input whose encrypted chunks concatenate to the single byte
`0x00`, the shard hash the code produces is the SHA-1 digest
`5ba93c9d…`, which differs from the claimed `RIPEMD-160(SHA-256(0x00))`
digest `9f7fd096…`. -/
theorem claim_C1_multipart_hash_is_sha1_not_ripemd160_sha256 :
    executeMultipartUpload (newMultipartUploadState 1) "uuid".toList "upload-id".toList
        (encryptAllChunks (fun _ => 0) (newMultipartUploadState 1) [0])
        (fun _ => Except.ok "etag".toList) =
      Except.ok
        { UUID := "uuid".toList,
          Hash := "5ba93c9db0cff93f52b521d7420e43f6eda2784f".toList,
          UploadId := "upload-id".toList,
          Parts := [{ PartNumber := 1, ETag := "etag".toList }] } ∧
    hexEncode (sha1 [0]) = "5ba93c9db0cff93f52b521d7420e43f6eda2784f".toList ∧
    hexEncode (ripemd160 (sha256 [0])) = "9f7fd096d37ed2c0e3f7f0cfc924beef4ffceb68".toList ∧
    "5ba93c9db0cff93f52b521d7420e43f6eda2784f".toList ≠
      "9f7fd096d37ed2c0e3f7f0cfc924beef4ffceb68".toList :=
  ⟨rfl, by decide, by decide, by decide⟩

/-- C6 (amended): for every multipart upload that completes without error, the
parts array sent to `finishMultipartUpload` has length `numParts` and
`parts[i].PartNumber = i+1`; `parts[i].ETag` equals the ETag string returned by
the successful transfer of chunk `i`, and is therefore non-empty whenever every
successful transfer returns a non-empty ETag (the code itself never checks
ETags for emptiness). -/
theorem claim_C6_parts_invariants (numParts : Nat) (chunks : List (List Nat))
    (transfer : Nat → Except (List Char) (List Char))
    (hlen : chunks.length = numParts)
    (hok : ∀ i, i < numParts → (transfer i).isOk = true) :
    ∃ parts overall,
      uploadConcurrently numParts chunks transfer = Except.ok (parts, overall) ∧
      parts.length = numParts ∧
      (∀ i (h : i < parts.length), (parts.get ⟨i, h⟩).PartNumber = (i : Int) + 1) ∧
      (∀ i (h : i < parts.length) e, transfer i = Except.ok e → (parts.get ⟨i, h⟩).ETag = e) ∧
      ((∀ i e, i < numParts → transfer i = Except.ok e → e ≠ []) →
        ∀ i (h : i < parts.length), (parts.get ⟨i, h⟩).ETag ≠ []) := by
  subst hlen
  have hnone : ((List.range chunks.length).findSome? fun i =>
      match transfer i with
      | .error e => some e
      | .ok _ => none) = (none : Option (List Char)) := by
    rw [List.findSome?_eq_none_iff]
    intro i hi
    have hoki := hok i (List.mem_range.mp hi)
    cases htr : transfer i with
    | ok v => simp
    | error e =>
      rw [htr] at hoki
      simp [Except.isOk, Except.toBool] at hoki
  refine ⟨(List.range chunks.length).map fun i =>
      if i < chunks.length then
        match transfer i with
        | .ok etag => { PartNumber := (i : Int) + 1, ETag := etag }
        | .error _ => { PartNumber := 0, ETag := [] }
      else { PartNumber := 0, ETag := [] },
    hexEncode (sha1 chunks.flatten), ?_, ?_, ?_, ?_, ?_⟩
  · simp only [uploadConcurrently, hnone]
  · simp
  · intro i h
    have hi : i < chunks.length := by simpa using h
    have hoki := hok i hi
    simp only [List.get_eq_getElem, List.getElem_map, List.getElem_range]
    rw [if_pos hi]
    cases htr : transfer i with
    | ok v => simp
    | error e =>
      rw [htr] at hoki
      simp [Except.isOk, Except.toBool] at hoki
  · intro i h e htr
    have hi : i < chunks.length := by simpa using h
    simp only [List.get_eq_getElem, List.getElem_map, List.getElem_range]
    rw [if_pos hi, htr]
  · intro hne i h
    have hi : i < chunks.length := by simpa using h
    have hoki := hok i hi
    simp only [List.get_eq_getElem, List.getElem_map, List.getElem_range]
    rw [if_pos hi]
    cases htr : transfer i with
    | ok v =>
      simpa using hne i v hi htr
    | error e =>
      rw [htr] at hoki
      simp [Except.isOk, Except.toBool] at hoki

/-- C6 (counterexample): a multipart upload in which every chunk transfer
succeeds but the server's returned ETag is the empty string completes without
error, and the parts array sent to `finishMultipartUpload` carries an empty
ETag — the claim "every `parts[i].ETag` is non-empty" fails on the code, which
never validates ETags. -/
theorem claim_C6_counterexample :
    uploadConcurrently 1 [[0]] (fun _ => Except.ok []) =
      Except.ok ([{ PartNumber := 1, ETag := [] }],
        "5ba93c9db0cff93f52b521d7420e43f6eda2784f".toList) := rfl

/-- C6 (witness): the amended theorem applied to a concrete two-part upload. -/
theorem claim_C6_witness :
    (uploadConcurrently 2 [[0], [1]] (fun _ => Except.ok ['e'])).isOk = true := by
  obtain ⟨parts, overall, heq, -, -, -, -⟩ :=
    claim_C6_parts_invariants 2 [[0], [1]] (fun _ => Except.ok ['e']) rfl (fun _ _ => rfl)
  rw [heq]
  rfl

/-- C5 (witness): the partitioning theorem applied to the one-byte file `[7]`. -/
theorem claim_C5_witness :
    ((newMultipartUploadState 1).chunkSize = 30 * 1024 * 1024 ∧
      ((newMultipartUploadState 1).numParts = 0 ↔ (1 : Int) = 0) ∧
      (1 : Int) ≤ (newMultipartUploadState 1).numParts * (30 * 1024 * 1024) ∧
      (newMultipartUploadState 1).numParts * (30 * 1024 * 1024) < 1 + 30 * 1024 * 1024) ∧
    (((encryptAllChunks (fun _ => 0) (newMultipartUploadState 1) [7]).length : Int) =
        (newMultipartUploadState 1).numParts ∧
      ∀ i (h : i < (encryptAllChunks (fun _ => 0) (newMultipartUploadState 1) [7]).length),
        ((i : Int) < (newMultipartUploadState 1).numParts - 1 →
          (((encryptAllChunks (fun _ => 0) (newMultipartUploadState 1) [7]).get ⟨i, h⟩).length : Int) =
            30 * 1024 * 1024) ∧
        ((i : Int) = (newMultipartUploadState 1).numParts - 1 →
          (((encryptAllChunks (fun _ => 0) (newMultipartUploadState 1) [7]).get ⟨i, h⟩).length : Int) =
            1 - ((newMultipartUploadState 1).numParts - 1) * (30 * 1024 * 1024))) :=
  ⟨claim_C5_chunk_partitioning.1 1 (by decide),
    claim_C5_chunk_partitioning.2.2.2 1 [7] (fun _ => 0) (by decide) (by decide)⟩

/-! ## C7 and C2: the dispatcher -/

/-- C7: for every known non-negative size, `UploadFileStreamAuto` routes the
upload to the multipart path exactly when `plainSize ≥ 100 MiB`
(`DefaultMultipartMinSize`) and to the single-part path when
`plainSize < 100 MiB`. -/
theorem claim_C7_dispatch_threshold (envS : SingleEnv) (envM : MultiEnv) (plainSize : Int)
    (hnn : 0 ≤ plainSize) :
    ((UploadFileStreamAuto envS envM plainSize).2 = UploadPath.multipart ↔
      100 * 1024 * 1024 ≤ plainSize) ∧
    ((UploadFileStreamAuto envS envM plainSize).2 = UploadPath.single ↔
      plainSize < 100 * 1024 * 1024) := by
  by_cases h : DefaultMultipartMinSize ≤ plainSize
  · have h' : 100 * 1024 * 1024 ≤ plainSize := by
      simpa [DefaultMultipartMinSize] using h
    simp only [UploadFileStreamAuto, if_pos h]
    refine ⟨⟨fun _ => h', fun _ => trivial⟩, ⟨fun hc => absurd hc (by simp), fun hlt => ?_⟩⟩
    exact absurd h' (by omega)
  · have h' : plainSize < 100 * 1024 * 1024 := by
      simp only [DefaultMultipartMinSize] at h
      omega
    simp only [UploadFileStreamAuto, if_neg h]
    refine ⟨⟨fun hc => absurd hc (by simp), fun hge => ?_⟩, ⟨fun _ => h', fun _ => trivial⟩⟩
    exact absurd h' (by omega)

/-- C7 (witness): at exactly 100 MiB the dispatcher takes the multipart path. -/
theorem claim_C7_witness :
    (UploadFileStreamAuto (successSingleEnv "fid".toList "uuid".toList)
        (successMultiEnv "fid".toList "uuid".toList) 104857600).2 = UploadPath.multipart :=
  (claim_C7_dispatch_threshold (successSingleEnv "fid".toList "uuid".toList)
    (successMultiEnv "fid".toList "uuid".toList) 104857600 (by decide)).1.mpr (by decide)

/-- C2 (counterexample): with every network call succeeding, uploading a
zero-byte file through the dispatcher performs one start-upload call, one
transfer, one finish-upload call and one `createMeta` whose request carries
`fileId = some fid` — there is no empty-file shortcut in the code, so the
claim's "zero start/transfer/finish calls and null networkFileID" fails. -/
theorem claim_C2_counterexample :
    (UploadFileStreamAuto (successSingleEnv "fid".toList "uuid".toList)
        (successMultiEnv "fid".toList "uuid".toList) 0).1.2 =
      { startCalls := 1, transferCalls := 1, finishCalls := 1,
        metaReqs := [{ fileID := some "fid".toList, size := 0 }] } ∧
    ¬((UploadFileStreamAuto (successSingleEnv "fid".toList "uuid".toList)
          (successMultiEnv "fid".toList "uuid".toList) 0).1.2.startCalls = 0 ∧
      (UploadFileStreamAuto (successSingleEnv "fid".toList "uuid".toList)
          (successMultiEnv "fid".toList "uuid".toList) 0).1.2.transferCalls = 0 ∧
      (UploadFileStreamAuto (successSingleEnv "fid".toList "uuid".toList)
          (successMultiEnv "fid".toList "uuid".toList) 0).1.2.finishCalls = 0 ∧
      ∀ r ∈ (UploadFileStreamAuto (successSingleEnv "fid".toList "uuid".toList)
          (successMultiEnv "fid".toList "uuid".toList) 0).1.2.metaReqs, r.fileID = none) :=
  ⟨rfl, by decide⟩

/-- C2 (amended): a zero-byte upload through the dispatcher takes the
single-part path and — when every call succeeds — performs exactly one
start-upload, one transfer, one finish-upload and one `createMeta` call whose
request carries `size = 0` and `fileId` equal to the network file id returned
by finish (never null). -/
theorem claim_C2_zero_byte_goes_single_part (fid uuid : List Char) (envM : MultiEnv) :
    UploadFileStreamAuto (successSingleEnv fid uuid) envM 0 =
      ((Except.ok uuid,
        { startCalls := 1, transferCalls := 1, finishCalls := 1,
          metaReqs := [{ fileID := some fid, size := 0 }] }), UploadPath.single) := rfl

/-! ## C8: CreateMetaFile retry -/

/-- C8: `CreateMetaFile` issues at most two requests; the call count is 2
exactly when the first attempt fails with HTTP 404 and the context is not
cancelled during the 500 ms wait.  A successful first attempt returns after
one call; a non-404 failure is returned immediately after one call; a 404
with a cancelled wait returns `ctx.Err()` after one call; a 404 followed by
a second failure (or success) finishes after exactly two calls. -/
theorem claim_C8_createMeta_retry (a1 a2 : Except MetaCallError (List Char)) (c : Bool) :
    (CreateMetaFile a1 a2 c).2 ≤ 2 ∧
    ((CreateMetaFile a1 a2 c).2 = 2 ↔
      (∃ e, a1 = Except.error e ∧ isNotFound e = true) ∧ c = false) ∧
    (∀ r, a1 = Except.ok r → CreateMetaFile a1 a2 c = (Except.ok r, 1)) ∧
    (∀ e, a1 = Except.error e → isNotFound e = false →
      CreateMetaFile a1 a2 c = (Except.error (CreateMetaError.fromCall e), 1)) ∧
    (∀ e, a1 = Except.error e → isNotFound e = true → c = true →
      CreateMetaFile a1 a2 c = (Except.error CreateMetaError.ctxCancelled, 1)) ∧
    (∀ e e2, a1 = Except.error e → isNotFound e = true → c = false → a2 = Except.error e2 →
      CreateMetaFile a1 a2 c = (Except.error (CreateMetaError.fromCall e2), 2)) ∧
    (∀ e r, a1 = Except.error e → isNotFound e = true → c = false → a2 = Except.ok r →
      CreateMetaFile a1 a2 c = (Except.ok r, 2)) := by
  cases a1 with
  | ok r => simp [CreateMetaFile]
  | error e =>
    cases hnf : isNotFound e with
    | false =>
      simp only [CreateMetaFile, hnf]
      refine ⟨by simp, by simp [hnf], by simp, by simp, ?_, ?_, ?_⟩
      · intro e1 he1 h1
        injection he1 with hee
        subst hee
        rw [hnf] at h1
        exact absurd h1 (by simp)
      · intro e1 e2 he1 h1
        injection he1 with hee
        subst hee
        rw [hnf] at h1
        exact absurd h1 (by simp)
      · intro e1 r he1 h1
        injection he1 with hee
        subst hee
        rw [hnf] at h1
        exact absurd h1 (by simp)
    | true =>
      cases c with
      | true => simp [CreateMetaFile, hnf]
      | false =>
        cases a2 with
        | ok r2 => simp [CreateMetaFile, hnf]
        | error e2 => simp [CreateMetaFile, hnf]

/-- C8 (witness): a 404 on both attempts fails after exactly two calls. -/
theorem claim_C8_witness :
    CreateMetaFile (Except.error (MetaCallError.httpError 404 []))
        (Except.error (MetaCallError.httpError 404 [])) false =
      (Except.error (CreateMetaError.fromCall (MetaCallError.httpError 404 [])), 2) :=
  (claim_C8_createMeta_retry (Except.error (MetaCallError.httpError 404 []))
    (Except.error (MetaCallError.httpError 404 [])) false).2.2.2.2.2.1
    (MetaCallError.httpError 404 []) (MetaCallError.httpError 404 []) rfl rfl rfl rfl

/-! ## C9: duplicate-shard classification on finish -/

/-- C9: every finish-upload response with status 500 whose body contains
"duplicate key error" makes both `FinishUpload` and `FinishMultipartUpload`
return the duplicate-shard error, which is distinct (as an error kind) from
the generic finish-failed error; every other non-2xx response yields the
generic finish-failed error. -/
theorem claim_C9_duplicate_shard (status : Int) (body : List Char) :
    (status = 500 → dupKeyMarker <:+: body →
      FinishUpload status body = FinishOutcome.duplicateShard 500 body ∧
      FinishMultipartUpload status body = FinishOutcome.duplicateShard 500 body) ∧
    ((status < 200 ∨ 300 ≤ status) → ¬(status = 500 ∧ dupKeyMarker <:+: body) →
      FinishUpload status body = FinishOutcome.finishFailed status body ∧
      FinishMultipartUpload status body = FinishOutcome.finishFailed status body) ∧
    (∀ s1 b1 s2 b2, FinishOutcome.duplicateShard s1 b1 ≠ FinishOutcome.finishFailed s2 b2) := by
  refine ⟨?_, ?_, ?_⟩
  · rintro rfl hdup
    have hcond : (500 : Int) < 200 ∨ (300 : Int) ≤ 500 := by norm_num
    have hsc : stringsContains body dupKeyMarker = true := by
      simp [stringsContains, hdup]
    constructor <;>
      simp [FinishUpload, FinishMultipartUpload, hcond, hsc]
  · intro hnon hnd
    have h2 : ¬(status = 500 ∧ stringsContains body dupKeyMarker = true) := by
      intro ⟨hs, hc⟩
      exact hnd ⟨hs, by simpa [stringsContains] using hc⟩
    constructor <;>
      simp [FinishUpload, FinishMultipartUpload, if_pos hnon, if_neg h2]
  · intro s1 b1 s2 b2
    simp

/-- C9 (witness): a 500 response whose body is exactly "duplicate key error". -/
theorem claim_C9_witness :
    FinishUpload 500 "duplicate key error".toList =
      FinishOutcome.duplicateShard 500 "duplicate key error".toList ∧
    FinishMultipartUpload 500 "duplicate key error".toList =
      FinishOutcome.duplicateShard 500 "duplicate key error".toList :=
  (claim_C9_duplicate_shard 500 "duplicate key error".toList).1 rfl (List.infix_refl _)

/-! ## C3: RetryAfter -/

/-- C3 (counterexample): the claim says `RetryAfter` honors the `Retry-After`
header.  On a response whose only rate-limit header is `Retry-After: 120`
(for which the claim prescribes a 120 s wait, i.e. `120 * 10^9` ns), the
method returns 0: it only ever reads `x-internxt-ratelimit-reset`. -/
theorem claim_C3_counterexample :
    RetryAfter (fun k => if k = "Retry-After" then "120" else "") = 0 ∧
    (120 * 1000000000 : Int) ≠ 0 :=
  ⟨rfl, by decide⟩

/-- `wrap64` is the identity on values already in the `int64` range. -/
theorem wrap64_eq_self (x : Int) (h1 : -9223372036854775808 ≤ x)
    (h2 : x ≤ 9223372036854775807) : wrap64 x = x := by
  unfold wrap64
  omega

/-- C3 (amended): when the `x-internxt-ratelimit-reset` header parses via
`strconv.Atoi` as a positive `int64` value `ms`, `RetryAfter` returns the
`int64` product `time.Duration(ms) * time.Millisecond` — i.e. the wrapped
value `wrap64 (ms * 10^6)` ns, which equals `ms` milliseconds whenever that
product fits in `int64`; in every other case (header absent, unparsable or
out of `int64` range, or non-positive) it returns 0.  The `Retry-After`
header is never consulted. -/
theorem claim_C3_retryAfter_reads_ratelimit_reset (headers : String → String) :
    (headers "x-internxt-ratelimit-reset" = "" → RetryAfter headers = 0) ∧
    (∀ ms : Int, goAtoi (headers "x-internxt-ratelimit-reset").toList = some ms →
      (0 < ms → RetryAfter headers = wrap64 (ms * 1000000)) ∧
      (0 < ms → ms * 1000000 ≤ 9223372036854775807 → RetryAfter headers = ms * 1000000) ∧
      (ms ≤ 0 → RetryAfter headers = 0)) ∧
    (goAtoi (headers "x-internxt-ratelimit-reset").toList = none → RetryAfter headers = 0) ∧
    (∀ v : String,
      RetryAfter (fun k => if k = "Retry-After" then v else headers k) = RetryAfter headers) := by
  refine ⟨?_, ?_, ?_, ?_⟩
  · intro h
    simp [RetryAfter, h]
  · intro ms hms
    have hwrap : 0 < ms → RetryAfter headers = wrap64 (ms * 1000000) := by
      intro hpos
      have hne : ¬(headers "x-internxt-ratelimit-reset" = "") := by
        intro h0
        rw [h0] at hms
        simp [goAtoi] at hms
      have hms2 : goAtoi (headers "x-internxt-ratelimit-reset").data = some ms := hms
      simp [RetryAfter, hne, hms2, hpos]
    refine ⟨hwrap, ?_, ?_⟩
    · intro hpos hfit
      rw [hwrap hpos, wrap64_eq_self _ (by omega) hfit]
    · intro hle
      have hms2 : goAtoi (headers "x-internxt-ratelimit-reset").data = some ms := hms
      by_cases h0 : headers "x-internxt-ratelimit-reset" = ""
      · simp [RetryAfter, h0]
      · simp [RetryAfter, h0, hms2, show ¬(0 < ms) by omega]
  · intro hn
    have hn2 : goAtoi (headers "x-internxt-ratelimit-reset").data = none := hn
    by_cases h0 : headers "x-internxt-ratelimit-reset" = ""
    · simp [RetryAfter, h0]
    · simp [RetryAfter, h0, hn2]
  · intro v
    have hk : (fun k => if k = "Retry-After" then v else headers k) "x-internxt-ratelimit-reset" =
        headers "x-internxt-ratelimit-reset" := by
      simp only []
      rw [if_neg (by decide)]
    simp only [RetryAfter, hk]

/-- The `int64` wrap in action, matching Go: a header of `9300000000000` ms
(parseable, positive) yields the wrapped negative duration
`9.3*10^18 - 2^64` ns, not `9.3*10^18` ns. -/
example : RetryAfter (fun _ => "9300000000000") = -9146744073709551616 := by decide

/-- `strconv.Atoi`'s range error: a 20-digit header value exceeds `int64`
and fails to parse, so `RetryAfter` returns 0. -/
example : goAtoi "99999999999999999999".toList = none ∧
    RetryAfter (fun _ => "99999999999999999999") = 0 := by decide

/-- C3 (witness): a response carrying `x-internxt-ratelimit-reset: 250`
waits 250 ms (the product fits `int64`). -/
theorem claim_C3_witness :
    RetryAfter (fun _ => "250") = 250 * 1000000 :=
  (((claim_C3_retryAfter_reads_ratelimit_reset (fun _ => "250")).2.1 250
    (by decide)).2.1 (by decide) (by decide))
